import Mathlib

/-!
Verification of the import-resolution/autofix lint rule
(packages/eslint-plugin/lib/rules/no-trigger-core-import.js) and of the
shared GitHub task error handler (integrations/github tasks file).

Shallow embedding conventions:
* Filesystem paths are lists of path segments measured from the repository
  root, e.g. ["packages", "core", "src", "v3", "index.ts"].  Node `path.join`
  becomes list append, `path.dirname` becomes `List.dropLast`.
* The filesystem is a finite association list from paths to entries; a file
  entry carries the parsed abstract syntax (only the export statements the
  rule inspects).  `fs.existsSync` is key membership; `fs.lstatSync(p)
  .isDirectory()` is modelled as `FS.isDir` (false on missing paths; the
  rule only calls it on paths it has already established to exist).
* The recursive export-graph walk of the source has no termination guard, so
  it is embedded with explicit fuel: a result of `none` means the fuel was
  exhausted, i.e. the JavaScript original would still be recursing at that
  depth; `some r` is the value the original returns.
-/

namespace TriggerSpec

/-- A filesystem path, as a list of segments from the repository root. -/
abbrev FsPath := List String

/-- The declaration forms inspected by the ExportNamedDeclaration visitor:
variable declarations (possibly several declarators), function declarations
and class declarations. -/
inductive Decl where
  | varDecl (names : List String)
  | funcDecl (name : String)
  | classDecl (name : String)
deriving DecidableEq, Repr

/-- The top-level export statements the rule traverses, in textual order:
`export <declaration>`, `export \x7b a, b \x7d from "source"` (the walker only
reads the exported names), and `export * from "source"`. -/
inductive ExportNode where
  | namedDecl (d : Decl)
  | namedFrom (exported : List String) (source : String)
  | exportAll (source : String)
deriving DecidableEq, Repr

/-- A filesystem entry: a parsed source file or a directory. -/
inductive FSNode where
  | file (ast : List ExportNode)
  | dir
deriving DecidableEq, Repr

/-- A finite filesystem: association list from paths to entries. -/
structure FS where
  entries : List (FsPath × FSNode)

/-- Entry lookup. -/
def FS.find (fs : FS) (p : FsPath) : Option FSNode :=
  List.lookup p fs.entries

/-- Models `fs.existsSync`. -/
def FS.existsSync (fs : FS) (p : FsPath) : Bool :=
  (fs.find p).isSome

/-- Models `fs.lstatSync(p).isDirectory()` (the rule only calls it on paths
that exist). -/
def FS.isDir (fs : FS) (p : FsPath) : Bool :=
  fs.find p == some FSNode.dir

/-- The parsed syntax of a file (models `parser.parse` of the file contents;
the rule assumes every visited path holds parseable source). -/
def FS.ast (fs : FS) (p : FsPath) : List ExportNode :=
  match fs.find p with
  | some (FSNode.file a) => a
  | _ => []

/-- Splits a string into slash-separated segments (a structural model of
splitting on "/", chosen so that the kernel can evaluate it). -/
def splitSlashAux : List Char → List Char → List String
  | [], acc => [String.mk acc.reverse]
  | c :: rest, acc =>
    if c = '/' then String.mk acc.reverse :: splitSlashAux rest []
    else splitSlashAux rest (c :: acc)

/-- Slash splitting of a string, e.g. "./foo" becomes [".", "foo"]. -/
def splitSlash (s : String) : List String :=
  splitSlashAux s.data []

/-- String prefix test (structural model of `String.prototype.startsWith`). -/
def strStartsWith (s pre : String) : Bool :=
  pre.data.isPrefixOf s.data

/-- Models `path.resolve(baseDir, sourceText)` for the relative specifiers
the rule feeds it: split on "/", drop "." and empty segments, let ".."
pop one segment. -/
def resolveRel (baseDir : FsPath) (source : String) : FsPath :=
  (splitSlash source).foldl
    (fun acc seg =>
      if seg = "." || seg = "" then acc
      else if seg = ".." then acc.dropLast
      else acc ++ [seg])
    baseDir

/-- The module sources the rule blocks (module-level constant
`blockedImportSources`). -/
def blockedImportSources : List String :=
  ["@trigger.dev/core", "@trigger.dev/core/v3"]

/-- Models `key.replace(/^\.\\/?/, "")`: strip one leading "." together with
an optional following "/". -/
def stripDotSlash (key : String) : String :=
  match key.data with
  | '.' :: '/' :: rest => String.mk rest
  | '.' :: rest => String.mk rest
  | _ => key

/-- Models `[ "@trigger.dev/core", key ].filter(Boolean).join("/")`. -/
def joinNonEmpty (parts : List String) : String :=
  String.intercalate "/" (parts.filter (fun s => s ≠ ""))

/-- Embeds `getAllowedBarrelFiles`, parameterised by the key list of the
`exports` map of packages/core/package.json (the manifest itself is data
outside the embedded sources; `for..in` enumerates keys in insertion order).
Each key is stripped of a leading "./", the "package.json" key is skipped,
the rest are joined to the package alias, and entries equal to a
blocked import source are filtered out. -/
def getAllowedBarrelFiles (exportKeys : List String) : List String :=
  (exportKeys.filterMap (fun key0 =>
      let key := stripDotSlash key0
      if key = "package.json" then none
      else some (joinNonEmpty ["@trigger.dev/core", key]))).filter
    (fun file => ¬ blockedImportSources.contains file)

/-- Models the segment analogue of
`filePath.split("packages/core/src/")[1]`: everything after the first
occurrence of the packages/core/src prefix. -/
def stripToCoreSrc : List String → List String
  | "packages" :: "core" :: "src" :: rest => rest
  | _ :: rest => stripToCoreSrc rest
  | [] => []

/-- Embeds `pathToCorePath`: rebase an absolute repository path onto the
"@trigger.dev/core" alias. -/
def pathToCorePath (filePath : FsPath) : String :=
  "@trigger.dev/core/" ++ String.intercalate "/" (stripToCoreSrc filePath)

/-- The extension probe order of `tryResolveSourcePath`. -/
def possibleExtensions : List String := ["", ".ts", ".tsx", ".js", ".jsx"]

/-- The index-file probe order of `tryResolveSourcePath`. -/
def possibleIndexFiles : List String :=
  ["index.ts", "index.tsx", "index.js", "index.jsx"]

/-- Embeds `tryResolveSourcePath(baseDir, sourcePath)`: first loop returns
the first of `sourcePath ++ ext` (ext over `possibleExtensions`) that
`existsSync` accepts; otherwise, if `sourcePath` names an existing
directory, the second loop returns the first existing index file inside it;
otherwise null. -/
def tryResolveSourcePath (fs : FS) (baseDir : FsPath) (sourcePath : String) :
    Option FsPath :=
  match possibleExtensions.find?
      (fun ext => fs.existsSync (resolveRel baseDir (sourcePath ++ ext))) with
  | some ext => some (resolveRel baseDir (sourcePath ++ ext))
  | none =>
    let dirPath := resolveRel baseDir sourcePath
    if fs.existsSync dirPath && fs.isDir dirPath then
      (possibleIndexFiles.find?
          (fun f => fs.existsSync (dirPath ++ [f]))).map
        (fun f => dirPath ++ [f])
    else none

/-- Declaration match of the ExportNamedDeclaration visitor: a variable
declarator, function name or class name equal to the queried specifier. -/
def declMatches (d : Decl) (specifier : String) : Bool :=
  match d with
  | Decl.varDecl names => names.contains specifier
  | Decl.funcDecl n => n == specifier
  | Decl.classDecl n => n == specifier

/-- State threaded through one file visit: the `foundPath` local and the
`barrelFile` variable captured by the `resolveExport` closure. -/
abbrev WalkState := Option FsPath × Option String

/-- Models the loop over `allowedBarrelFiles` at the top of `resolveExport`:
every allow-list entry that prefixes the file package-relative path
overwrites `barrelFile` (there is no break, so the last matching entry
wins and an earlier recorded value survives only when nothing matches). -/
def barrelScan (allowed : List String) (filePath : FsPath)
    (barrel : Option String) : Option String :=
  allowed.foldl
    (fun b a => if strStartsWith (pathToCorePath filePath) a then some a else b)
    barrel

/-- Models the inner loop over `node.specifiers` of an
`export \x7b ... \x7d from "source"` statement.  The Boolean flag records the
early `return` of the visitor callback: after a successful recursive
resolution the remaining specifiers of this statement are skipped.  A
failed recursion still threads the (possibly updated) `barrelFile`.
`recur` is the recursive `resolveExport` call at one unit less fuel. -/
def walkSpecs (fs : FS) (dir : FsPath) (source : String) (specifier : String)
    (recur : FsPath → Option String → Option WalkState) :
    List String → WalkState × Bool → Option (WalkState × Bool)
  | [], st => some st
  | ex :: rest, st =>
    if st.2 then some st
    else if ex = specifier then
      match tryResolveSourcePath fs dir source with
      | some resolvedSourcePath =>
        match recur resolvedSourcePath st.1.2 with
        | none => none
        | some (some p, b2) => some ((some p, b2), true)
        | some (none, b2) =>
          walkSpecs fs dir source specifier recur rest ((st.1.1, b2), false)
      | none => walkSpecs fs dir source specifier recur rest st
    else walkSpecs fs dir source specifier recur rest st

/-- Models the babel `traverse` over the top-level statements of one file,
in textual order.  Matching declarations overwrite `foundPath`
unconditionally; named re-exports use `walkSpecs`; wildcard re-exports
recurse and overwrite `foundPath` only on success.  The traversal never
stops early: the visitor `return` statements only end the per-node
callback. -/
def walkNodes (fs : FS) (dir filePath : FsPath) (specifier : String)
    (recur : FsPath → Option String → Option WalkState) :
    List ExportNode → WalkState → Option WalkState
  | [], st => some st
  | node :: rest, st =>
    match node with
    | ExportNode.namedDecl d =>
      walkNodes fs dir filePath specifier recur rest
        (if declMatches d specifier then some filePath else st.1, st.2)
    | ExportNode.namedFrom exported source =>
      match walkSpecs fs dir source specifier recur exported (st, false) with
      | none => none
      | some st2 => walkNodes fs dir filePath specifier recur rest st2.1
    | ExportNode.exportAll source =>
      match tryResolveSourcePath fs dir source with
      | some resolvedSourcePath =>
        match recur resolvedSourcePath st.2 with
        | none => none
        | some (some p, b2) =>
          walkNodes fs dir filePath specifier recur rest (some p, b2)
        | some (none, b2) =>
          walkNodes fs dir filePath specifier recur rest (st.1, b2)
      | none => walkNodes fs dir filePath specifier recur rest st

/-- Embeds the recursive `resolveExport(fileOrDir, specifier)` closure of
`resolveSpecifier`, with the captured `barrelFile` variable made an
explicit input and output.  The JavaScript original has no recursion
guard, so recursion depth is paid for with fuel: `none` means the
original is still recursing at this depth.  A directory input redirects
to its index.ts; a missing file returns null with `barrelFile`
untouched; otherwise the allow-list scan runs and the file statements
are traversed. -/
def resolveExport (fs : FS) (allowed : List String) :
    Nat → FsPath → String → Option String → Option WalkState
  | 0, _, _, _ => none
  | fuel + 1, fileOrDir, specifier, barrel =>
    let filePath :=
      if fs.isDir fileOrDir then fileOrDir ++ ["index.ts"] else fileOrDir
    if fs.existsSync filePath then
      let dir := if fs.isDir fileOrDir then fileOrDir else fileOrDir.dropLast
      walkNodes fs dir filePath specifier
        (fun p b => resolveExport fs allowed fuel p specifier b)
        (fs.ast filePath) (none, barrelScan allowed filePath barrel)
    else some (none, barrel)

/-- The environment of one rule run: the filesystem, the result of the
tsconfig-paths based `resolveModulePath` (modelled from the spec, section
4.1 Path Resolver — the path-mapping configuration is not part of the
embedded sources), and the module-level `allowedBarrelFiles` constant. -/
structure Env where
  fs : FS
  resolveModule : String → FsPath
  allowedBarrelFiles : List String

/-- Embeds `resolveSpecifier(importSource, specifier)`: resolve the blocked
source to a file, walk the export graph from its directory, and return the
`barrelFile` recorded by the walk when a defining file was found (null
otherwise — note the found path itself is discarded). -/
def resolveSpecifier (env : Env) (fuel : Nat) (importSource specifier : String) :
    Option (Option String) :=
  let corePath := env.resolveModule importSource
  let coreDir := corePath.dropLast
  match resolveExport env.fs env.allowedBarrelFiles fuel coreDir specifier none with
  | none => none
  | some (resolvedPath, barrelFile) =>
    some (if resolvedPath.isSome then barrelFile else none)

/-- One named import specifier as the rule sees it: `imported.name`,
`local.name`, and the source text returned by
`context.getSourceCode().getText(specifier)`. -/
structure ImportSpecifierNode where
  importedName : String
  localName : String
  text : String
deriving DecidableEq, Repr

/-- An import declaration node: its source string and named specifiers. -/
structure ImportDeclarationNode where
  sourceValue : String
  specifiers : List ImportSpecifierNode
deriving DecidableEq, Repr

/-- What `context.report` was called with: either the fixable diagnostic
(messageId `noTriggerCoreImportFixable`, with its `data` fields and the
fix replacement text) or the plain diagnostic (messageId
`noTriggerCoreImport`, no fix). -/
inductive RuleReport where
  | fixableReport (importSource : String) (names : String)
      (resolvedPath : String) (fixText : String)
  | plainReport (importSource : String)
deriving DecidableEq, Repr

/-- A single-quote character, used by the synthesized fix text. -/
def sq : String := String.singleton (Char.ofNat 39)

/-- First-occurrence deduplication, models `Array.from(new Set(xs))`. -/
def dedupFirst (xs : List String) : List String :=
  xs.foldl (fun acc x => if acc.contains x then acc else acc ++ [x]) []

/-- Maps a fallible function over the specifier list, propagating fuel
exhaustion (models the `.map(...)` over `node.specifiers`, where a
diverging resolution diverges the whole visit). -/
def mapSpecs (f : ImportSpecifierNode → Option (ImportSpecifierNode × Option String)) :
    List ImportSpecifierNode → Option (List (ImportSpecifierNode × Option String))
  | [] => some []
  | a :: rest =>
    match f a with
    | none => none
    | some r => (mapSpecs f rest).map (fun rs => r :: rs)

/-- Embeds the `ImportDeclaration` visitor of `create`: on a blocked
source, resolve each named specifier (fuel exhaustion anywhere models the
whole visit still recursing), keep the resolved ones paired with their
source text, and report either the fixable diagnostic — one
synthesized replacement statement per resolved specifier, joined by newlines — or the
plain diagnostic when nothing resolved.  A non-blocked source produces no
report. -/
def visitImportDeclaration (env : Env) (fuel : Nat)
    (node : ImportDeclarationNode) : Option (Option RuleReport) :=
  if blockedImportSources.contains node.sourceValue then
    match mapSpecs
        (fun s => (resolveSpecifier env fuel node.sourceValue s.importedName).map
          (fun r => (s, r))) node.specifiers with
    | none => none
    | some results =>
      let specifierFixes :=
        results.filterMap (fun sr => sr.2.map (fun p => (sr.1.text, p)))
      if specifierFixes.length > 0 then
        some (some (RuleReport.fixableReport node.sourceValue
          (String.intercalate ", " (node.specifiers.map (fun s => s.localName)))
          (String.intercalate ", " (dedupFirst (specifierFixes.map (fun f => f.2))))
          (String.intercalate "\n" (specifierFixes.map (fun f =>
            "import \x7b " ++ f.1 ++ " \x7d from " ++ sq ++ f.2 ++ sq ++ ";")))))
      else some (some (RuleReport.plainReport node.sourceValue))
  else some none

/-! ## Concrete scenarios

The filesystem fragments below instantiate the claims of the spec.  All of
them live under packages/core/src, matching how the rule rebases visited
paths onto the "@trigger.dev/core" alias. -/

/-- Path helper: a path inside packages/core/src. -/
def coreSrc (rest : List String) : FsPath :=
  ["packages", "core", "src"] ++ rest

/-- Scenario of the end-to-end fixable claim: `Foo` is declared in
packages/core/src/v3/foo.ts and re-exported from v3/index.ts. -/
def fsC1 : FS :=
  ⟨[(coreSrc ["v3"], FSNode.dir),
    (coreSrc ["v3", "index.ts"],
      FSNode.file [ExportNode.namedFrom ["Foo"] "./foo"]),
    (coreSrc ["v3", "foo.ts"],
      FSNode.file [ExportNode.namedDecl (Decl.varDecl ["Foo"])])]⟩

/-- Environment of the end-to-end scenario.  Modelled from the spec: the
core package manifest (section 4.4) declares ".", "./v3" and "./v3/foo" as
entry points, and the Path Resolver (section 4.1) maps the blocked alias
onto packages/core/src/v3/index.ts — both inputs live outside the embedded
sources. -/
def envC1 : Env :=
  ⟨fsC1, fun _ => coreSrc ["v3", "index.ts"],
    getAllowedBarrelFiles [".", "./v3", "./v3/foo"]⟩

/-- The lint-target import of the end-to-end scenario. -/
def nodeC1 : ImportDeclarationNode :=
  ⟨"@trigger.dev/core/v3", [⟨"Foo", "Foo", "Foo"⟩]⟩

/-- Scenario of the tie-break claim: a2.ts declares `Sym` and then
wildcard re-exports b2.ts, which also declares `Sym`; a2r.ts is the same
file with the two statements in the opposite order. -/
def pA2 : FsPath := coreSrc ["a2.ts"]

/-- The re-export target of the tie-break scenario. -/
def pB2 : FsPath := coreSrc ["b2.ts"]

/-- The declaration-after-re-export variant of the tie-break scenario. -/
def pA2r : FsPath := coreSrc ["a2r.ts"]

/-- Filesystem of the tie-break scenario. -/
def fsC2 : FS :=
  ⟨[(pA2, FSNode.file [ExportNode.namedDecl (Decl.varDecl ["Sym"]),
        ExportNode.exportAll "./b2"]),
    (pA2r, FSNode.file [ExportNode.exportAll "./b2",
        ExportNode.namedDecl (Decl.varDecl ["Sym"])]),
    (pB2, FSNode.file [ExportNode.namedDecl (Decl.varDecl ["Sym"])])]⟩

/-- Cyclic scenario: a.ts wildcard re-exports b.ts and vice versa; the
queried symbol is declared in neither. -/
def pA3 : FsPath := coreSrc ["a.ts"]

/-- Second file of the cyclic scenario. -/
def pB3 : FsPath := coreSrc ["b.ts"]

/-- Filesystem of the cyclic scenario. -/
def fsC3 : FS :=
  ⟨[(pA3, FSNode.file [ExportNode.exportAll "./b"]),
    (pB3, FSNode.file [ExportNode.exportAll "./a"])]⟩

/-- Scenario of the fix-grouping claim: two specifiers that both resolve
to the same allowed entry point. -/
def fsC4 : FS :=
  ⟨[(coreSrc ["v3"], FSNode.dir),
    (coreSrc ["v3", "index.ts"],
      FSNode.file [ExportNode.namedFrom ["A1", "B1"] "./foo"]),
    (coreSrc ["v3", "foo.ts"],
      FSNode.file [ExportNode.namedDecl (Decl.varDecl ["A1"]),
        ExportNode.namedDecl (Decl.varDecl ["B1"])])]⟩

/-- Environment of the fix-grouping scenario (same modelled manifest and
path mapping as the end-to-end scenario). -/
def envC4 : Env :=
  ⟨fsC4, fun _ => coreSrc ["v3", "index.ts"],
    getAllowedBarrelFiles [".", "./v3", "./v3/foo"]⟩

/-- Import with two specifiers, the second aliased, both resolving to the
same path. -/
def nodeC4 : ImportDeclarationNode :=
  ⟨"@trigger.dev/core/v3", [⟨"A1", "A1", "A1"⟩, ⟨"B1", "CeeB", "B1 as CeeB"⟩]⟩

/-- Allow-list of the barrel-bookkeeping scenario: two disjoint entries. -/
def allowedC5 : List String :=
  ["@trigger.dev/core/aa", "@trigger.dev/core/bb"]

/-- Barrel scenario entry file: wildcard re-export into aa/ (no match for
the symbol) followed by a named re-export into bb/ (the match). -/
def idx5 : FsPath := coreSrc ["index5.ts"]

/-- First visited file of the barrel scenario (under the aa entry). -/
def pAx : FsPath := coreSrc ["aa", "x.ts"]

/-- Second visited file of the barrel scenario (under the bb entry). -/
def pBy : FsPath := coreSrc ["bb", "y.ts"]

/-- Filesystem of the barrel-bookkeeping scenario. -/
def fsC5 : FS :=
  ⟨[(idx5, FSNode.file [ExportNode.exportAll "./aa/x",
        ExportNode.namedFrom ["Sym5"] "./bb/y"]),
    (pAx, FSNode.file [ExportNode.namedDecl (Decl.varDecl ["Other"])]),
    (pBy, FSNode.file [ExportNode.namedDecl (Decl.varDecl ["Sym5"])])]⟩

/-- Overlapping allow-list used to show that, within one file visit, the
last matching entry of the list wins. -/
def allowedC5b : List String :=
  ["@trigger.dev/core/bb", "@trigger.dev/core/bb/y"]

/-- Scenario of the zero-resolved claim: the export graph of the blocked
package does not contain the queried symbol at all. -/
def fsC7 : FS :=
  ⟨[(coreSrc ["index.ts"],
      FSNode.file [ExportNode.namedDecl (Decl.varDecl ["Baz"])])]⟩

/-- Environment of the zero-resolved scenario. -/
def envC7 : Env :=
  ⟨fsC7, fun _ => coreSrc ["index.ts"], getAllowedBarrelFiles [".", "./v3"]⟩

/-- Import of a symbol absent from the reachable export graph. -/
def nodeC7 : ImportDeclarationNode :=
  ⟨"@trigger.dev/core", [⟨"Bar", "Bar", "Bar"⟩]⟩

/-- Environment identical to the end-to-end scenario but with an empty
allow-list: the defining file is found, yet no visited path matches an
allowed entry. -/
def envC9 : Env :=
  ⟨fsC1, fun _ => coreSrc ["v3", "index.ts"], []⟩

/-- Filesystem of the relative-resolver scenario: the specifier names an
existing directory that contains an index.ts. -/
def fsC8 : FS :=
  ⟨[(["d", "sub"], FSNode.dir),
    (["d", "sub", "index.ts"], FSNode.file [])]⟩

/-- Validity of the recorded barrel candidate: it is either absent or an
element of the allow-list. -/
def okBarrel (allowed : List String) : Option String → Prop
  | none => True
  | some p => p ∈ allowed

/-! ## GitHub task wrappers: the shared onError handler

The error value is modelled by the properties the handler reads: whether
the thrown value is a non-null object, its numeric `status` property (when
present), and its `response` (when truthy) with its header map.  Header
values are strings, as in the HTTP client. -/

/-- The response attached to a request error: its header association list. -/
structure GHResponse where
  headers : List (String × String)
deriving DecidableEq, Repr

/-- A thrown value as `onError` observes it. -/
structure GHError where
  isNonNullObject : Bool
  statusProp : Option Int
  response : Option GHResponse
deriving DecidableEq, Repr

/-- Embeds `isRequestError`: a non-null object with a `status` property. -/
def isRequestError (error : GHError) : Bool :=
  error.isNonNullObject && error.statusProp.isSome

/-- Header lookup, models `response.headers[name]` (absent keys read as
undefined). -/
def headerGet (resp : GHResponse) (name : String) : Option String :=
  List.lookup name resp.headers

/-- JavaScript truthiness of a possibly-absent header string: undefined and
the empty string are falsy. -/
def jsTruthy : Option String → Bool
  | some v => v != ""
  | none => false

/-- Parses a decimal digit string (a structural model of `Number(...)` on
the integer strings carried by rate-limit headers; `none` stands for the
NaN produced by a non-numeric string). -/
def jsNumberNat (s : String) : Option Nat :=
  match s.data with
  | [] => none
  | l =>
    l.foldl
      (fun acc c =>
        match acc with
        | none => none
        | some n =>
          if 48 ≤ c.toNat then
            if c.toNat ≤ 57 then some (n * 10 + (c.toNat - 48)) else none
          else none)
      (some 0)

/-- The retry hint `onError` may return: the epoch milliseconds of the
`retryAt` date (`none` models an invalid date built from NaN) and the
original error. -/
structure RetryHint where
  retryAtMs : Option Nat
  err : GHError
deriving DecidableEq, Repr

/-- Embeds the shared `onError` of the GitHub task wrappers: return a retry
hint exactly for rate-limit errors — a request error with status 403, a
truthy response, an `x-ratelimit-remaining` header equal to "0" and a
truthy `x-ratelimit-reset` header — with `retryAt` the date built from
the reset epoch seconds times 1000; otherwise return undefined. -/
def onError (error : GHError) : Option RetryHint :=
  if !(isRequestError error) then none
  else if (error.statusProp == some 403) && error.response.isSome then
    match error.response with
    | some response =>
      let rateLimitRemaining := headerGet response "x-ratelimit-remaining"
      let rateLimitReset := headerGet response "x-ratelimit-reset"
      if (rateLimitRemaining == some "0") && jsTruthy rateLimitReset then
        match rateLimitReset with
        | some v =>
          some { retryAtMs := (jsNumberNat v).map (fun n => n * 1000),
                 err := error }
        | none => none
      else none
    | none => none
  else none

/-- A GitHub task wrapper, reduced to the parts the error-handling claim
is about: its metadata name and its onError handler. -/
structure GithubTask where
  name : String
  onError : GHError → Option RetryHint

/-- Task wrapper `createIssue` (shares the module-level handler). -/
def createIssue : GithubTask := ⟨"Create Issue", onError⟩

/-- Task wrapper `createIssueComment`. -/
def createIssueComment : GithubTask := ⟨"Create Issue Comment", onError⟩

/-- Task wrapper `getRepo`. -/
def getRepo : GithubTask := ⟨"Get Repo", onError⟩

/-- Task wrapper `createIssueCommentWithReaction`. -/
def createIssueCommentWithReaction : GithubTask := ⟨"Create Issue Comment", onError⟩

/-- Task wrapper `addIssueCommentReaction`. -/
def addIssueCommentReaction : GithubTask := ⟨"Add Issue Reaction", onError⟩

/-- Task wrapper `updateWebhook`. -/
def updateWebhook : GithubTask := ⟨"Update Webhook", onError⟩

/-- Task wrapper `createWebhook`. -/
def createWebhook : GithubTask := ⟨"Create Webhook", onError⟩

/-- Task wrapper `listWebhooks`. -/
def listWebhooks : GithubTask := ⟨"List Webhooks", onError⟩

/-- Task wrapper `updateOrgWebhook`. -/
def updateOrgWebhook : GithubTask := ⟨"Update Org Webhook", onError⟩

/-- Task wrapper `createOrgWebhook`. -/
def createOrgWebhook : GithubTask := ⟨"Create Org Webhook", onError⟩

/-- Task wrapper `listOrgWebhooks`. -/
def listOrgWebhooks : GithubTask := ⟨"List Org Webhooks", onError⟩

/-- The exported `tasks` object, in source order. -/
def tasks : List GithubTask :=
  [createIssue, createIssueComment, getRepo, createIssueCommentWithReaction,
    addIssueCommentReaction, updateWebhook, createWebhook, listWebhooks,
    updateOrgWebhook, createOrgWebhook, listOrgWebhooks]

/-- A 403 rate-limit error whose `x-ratelimit-reset` header is present but
empty. -/
def respEmptyReset : GHResponse :=
  ⟨[("x-ratelimit-remaining", "0"), ("x-ratelimit-reset", "")]⟩

/-- The error carrying `respEmptyReset`. -/
def errEmptyReset : GHError :=
  ⟨true, some 403, some respEmptyReset⟩

/-! ## Claim theorems -/

/-- C1: end-to-end, for a linted `import \x7b Foo \x7d from "@trigger.dev/core/v3"`
where `Foo` is declared in packages/core/src/v3/foo.ts and re-exported from
v3/index.ts, the rule reports a fixable diagnostic whose fix text is exactly
`import \x7b Foo \x7d from @trigger.dev/core/v3/foo;` (single-quoted path), the
replacement path being the resolved package-relative path of the defining
file, with the original binding text preserved. -/
theorem c1_end_to_end_fix_text :
    visitImportDeclaration envC1 5 nodeC1 =
      some (some (RuleReport.fixableReport "@trigger.dev/core/v3" "Foo"
        "@trigger.dev/core/v3/foo"
        ("import \x7b Foo \x7d from " ++ sq ++ "@trigger.dev/core/v3/foo" ++ sq ++ ";"))) := by
  rfl

/-- C2 counterexample: in a file that declares `Sym` and afterwards wildcard
re-exports a file that also declares `Sym`, the search result is the
re-export target, not the current file — so a matching declaration in the
current file does not take priority over re-exports, and the first match
does not terminate the search. -/
theorem c2_counterexample :
    resolveExport fsC2 [] 5 pA2 "Sym" none = some (some pB2, none) ∧
      pB2 ≠ pA2 := by
  exact ⟨rfl, by decide⟩

/-- C2 amended: the walk visits statements in textual order but never stops
at a match; every later successful match (declaration or resolved
re-export) overwrites the result, so the last successful match in textual
order wins.  With the declaration first the re-export target wins; with
the re-export first the declaring file itself wins. -/
theorem c2_last_match_wins :
    resolveExport fsC2 [] 5 pA2 "Sym" none = some (some pB2, none) ∧
      resolveExport fsC2 [] 5 pA2r "Sym" none = some (some pA2r, none) := by
  exact ⟨rfl, rfl⟩

/-- C4 counterexample: two specifiers of one blocked import resolving to the
same path produce two synthesized import statements, not one grouped
statement per distinct resolved path as claimed. -/
theorem c4_counterexample :
    visitImportDeclaration envC4 9 nodeC4 =
      some (some (RuleReport.fixableReport "@trigger.dev/core/v3" "A1, CeeB"
        "@trigger.dev/core/v3/foo"
        ("import \x7b A1 \x7d from " ++ sq ++ "@trigger.dev/core/v3/foo" ++ sq ++ ";\n"
          ++ "import \x7b B1 as CeeB \x7d from " ++ sq ++ "@trigger.dev/core/v3/foo"
          ++ sq ++ ";"))) ∧
      ("import \x7b A1 \x7d from " ++ sq ++ "@trigger.dev/core/v3/foo" ++ sq ++ ";\n"
          ++ "import \x7b B1 as CeeB \x7d from " ++ sq ++ "@trigger.dev/core/v3/foo"
          ++ sq ++ ";") ≠
        ("import \x7b A1, B1 as CeeB \x7d from " ++ sq ++ "@trigger.dev/core/v3/foo"
          ++ sq ++ ";") := by
  exact ⟨rfl, by decide⟩

/-- C4 amended: the driver synthesizes one replacement import statement per
successfully resolved specifier (joined by newlines), each of the shape
`import \x7b text \x7d from <path>;` with the original specifier source text
(alias syntax included) preserved verbatim; only the resolved-path list of
the diagnostic message data is deduplicated; the autofix replaces the whole
original import statement with that concatenation. -/
theorem c4_per_specifier_fix :
    visitImportDeclaration envC4 9 nodeC4 =
      some (some (RuleReport.fixableReport "@trigger.dev/core/v3" "A1, CeeB"
        "@trigger.dev/core/v3/foo"
        ("import \x7b A1 \x7d from " ++ sq ++ "@trigger.dev/core/v3/foo" ++ sq ++ ";\n"
          ++ "import \x7b B1 as CeeB \x7d from " ++ sq ++ "@trigger.dev/core/v3/foo"
          ++ sq ++ ";"))) ∧
      dedupFirst ["@trigger.dev/core/v3/foo", "@trigger.dev/core/v3/foo"] =
        ["@trigger.dev/core/v3/foo"] := by
  exact ⟨rfl, rfl⟩

/-- C5 counterexample: with two allow-list entries, the walk first visits a
file under the aa entry (recording aa, as the second conjunct shows) and
later a file under the bb entry; the candidate recorded by the whole
traversal is bb, the last match, not the first one. -/
theorem c5_counterexample :
    resolveExport fsC5 allowedC5 9 idx5 "Sym5" none =
        some (some pBy, some "@trigger.dev/core/bb") ∧
      resolveExport fsC5 allowedC5 9 pAx "Sym5" none =
        some ((none : Option FsPath), some "@trigger.dev/core/aa") ∧
      ("@trigger.dev/core/bb" : String) ≠ "@trigger.dev/core/aa" := by
  exact ⟨rfl, rfl, by decide⟩

/-- C5 amended: the recorded candidate is the last match found during the
traversal — each visited file whose package-relative path extends an
allow-list entry overwrites it (independently of whether the symbol is
located in that file, as the aa visit shows), and within one file visit
the last matching entry of the allow-list wins. -/
theorem c5_last_barrel_recorded :
    resolveExport fsC5 allowedC5 9 idx5 "Sym5" none =
        some (some pBy, some "@trigger.dev/core/bb") ∧
      resolveExport fsC5 allowedC5 9 pAx "Sym5" none =
        some ((none : Option FsPath), some "@trigger.dev/core/aa") ∧
      resolveExport fsC5 allowedC5b 9 pBy "Sym5" none =
        some (some pBy, some "@trigger.dev/core/bb/y") := by
  exact ⟨rfl, rfl, rfl⟩

/-- C6 counterexample: for manifest exports keyed "." and "./v3", both
mapped entries equal blocked import sources, so the allow-list is empty —
not the claimed singleton containing the "/v3" entry. -/
theorem c6_counterexample :
    getAllowedBarrelFiles [".", "./v3"] = [] ∧
      ([] : List String) ≠ ["@trigger.dev/core/v3"] := by
  exact ⟨rfl, by decide⟩

/-- C6 amended: each export-map key is stripped of a leading "./" and joined
to the package root alias, and every entry equal to one of the
blocked import sources — which are both the root alias and "@trigger.dev/core/v3" —
is excluded; hence the {".", "./v3"} manifest yields the empty set, while a
deeper key such as "./v3/zodMessageHandler" survives. -/
theorem c6_allowlist_mapping :
    getAllowedBarrelFiles [".", "./v3"] = [] ∧
      getAllowedBarrelFiles [".", "./v3", "./v3/zodMessageHandler"] =
        ["@trigger.dev/core/v3/zodMessageHandler"] ∧
      blockedImportSources = ["@trigger.dev/core", "@trigger.dev/core/v3"] := by
  exact ⟨rfl, rfl, rfl⟩

/-- C8 counterexample: when the specifier names an existing directory, the
extensionless probe already succeeds (existsSync is true for directories),
so the function returns the directory path itself instead of probing the
index files inside it as claimed. -/
theorem c8_counterexample :
    tryResolveSourcePath fsC8 ["d"] "./sub" = some ["d", "sub"] ∧
      fsC8.isDir ["d", "sub"] = true ∧
      (["d", "sub"] : FsPath) ≠ ["d", "sub", "index.ts"] := by
  exact ⟨rfl, rfl, by decide⟩

/-- One unfolding step of the cyclic walk starting at a.ts: the whole call
reduces to the recursive call into b.ts at one unit less fuel. -/
lemma c3_step_a (n : Nat) (b : Option String)
    (h : resolveExport fsC3 [] n pB3 "Foo" b = none) :
    resolveExport fsC3 [] (n + 1) pA3 "Foo" b = none := by
  have h1 : resolveExport fsC3 [] (n + 1) pA3 "Foo" b =
      walkNodes fsC3 (pA3.dropLast) pA3 "Foo"
        (fun p b2 => resolveExport fsC3 [] n p "Foo" b2)
        [ExportNode.exportAll "./b"] (none, b) := rfl
  have h2 : tryResolveSourcePath fsC3 (pA3.dropLast) "./b" = some pB3 := rfl
  rw [h1]
  simp only [walkNodes, h2, h]

/-- One unfolding step of the cyclic walk starting at b.ts. -/
lemma c3_step_b (n : Nat) (b : Option String)
    (h : resolveExport fsC3 [] n pA3 "Foo" b = none) :
    resolveExport fsC3 [] (n + 1) pB3 "Foo" b = none := by
  have h1 : resolveExport fsC3 [] (n + 1) pB3 "Foo" b =
      walkNodes fsC3 (pB3.dropLast) pB3 "Foo"
        (fun p b2 => resolveExport fsC3 [] n p "Foo" b2)
        [ExportNode.exportAll "./a"] (none, b) := rfl
  have h2 : tryResolveSourcePath fsC3 (pB3.dropLast) "./a" = some pA3 := rfl
  rw [h1]
  simp only [walkNodes, h2, h]

/-- C3: on the cyclic re-export graph (a.ts wildcard re-exports b.ts and
b.ts wildcard re-exports a.ts, with the queried symbol declared in
neither), the embedded walk exhausts every fuel bound — for no recursion
depth does `resolveExport` return a value, i.e. the JavaScript original
recurses indefinitely instead of terminating with NotFound or a result at
bounded depth as the claim requires. -/
theorem c3_cycle_never_terminates :
    ∀ (fuel : Nat) (b : Option String),
      resolveExport fsC3 [] fuel pA3 "Foo" b = none ∧
        resolveExport fsC3 [] fuel pB3 "Foo" b = none := by
  intro fuel
  induction fuel with
  | zero => intro b; exact ⟨rfl, rfl⟩
  | succ n ih =>
    intro b
    exact ⟨c3_step_a n b (ih b).2, c3_step_b n b (ih b).1⟩

/-- C8 amended: the function probes, in order, the specifier with no
extension and then with .ts, .tsx, .js, .jsx appended, each checked with
a bare existence test that accepts directories as well as files, and
returns the first existing path; because an existing directory already
satisfies the extensionless probe, the index-file branch is unreachable
and index files are never probed; when all five probes fail the result is
NotFound (a null result, not an error). -/
theorem c8_probe_order :
    ∀ (fs : FS) (baseDir : FsPath) (sourcePath : String),
      tryResolveSourcePath fs baseDir sourcePath =
        (possibleExtensions.find?
            (fun ext => fs.existsSync (resolveRel baseDir (sourcePath ++ ext)))).map
          (fun ext => resolveRel baseDir (sourcePath ++ ext)) ∧
      (tryResolveSourcePath fs baseDir sourcePath = none ↔
        ∀ ext ∈ possibleExtensions,
          fs.existsSync (resolveRel baseDir (sourcePath ++ ext)) = false) := by
  intro fs baseDir sourcePath
  have hmain : tryResolveSourcePath fs baseDir sourcePath =
      (possibleExtensions.find?
          (fun ext => fs.existsSync (resolveRel baseDir (sourcePath ++ ext)))).map
        (fun ext => resolveRel baseDir (sourcePath ++ ext)) := by
    unfold tryResolveSourcePath
    cases hf : possibleExtensions.find?
        (fun ext => fs.existsSync (resolveRel baseDir (sourcePath ++ ext))) with
    | some ext => simp [hf]
    | none =>
      have hall := List.find?_eq_none.mp hf
      have hempty : fs.existsSync (resolveRel baseDir sourcePath) = false := by
        have h0 := hall "" (by simp [possibleExtensions])
        rw [String.append_empty] at h0
        simpa using h0
      simp [hf, hempty]
  refine ⟨hmain, ?_⟩
  rw [hmain]
  simp only [Option.map_eq_none', List.find?_eq_none, Bool.not_eq_true]

/-- When every specifier of the list resolves to null (and no call runs out
of fuel), the specifier mapping of the visitor succeeds and pairs every
specifier with null. -/
lemma mapSpecs_all_none (env : Env) (fuel : Nat) (src : String) :
    ∀ (l : List ImportSpecifierNode),
      (∀ s ∈ l, resolveSpecifier env fuel src s.importedName = some none) →
      mapSpecs (fun s =>
          (resolveSpecifier env fuel src s.importedName).map (fun r => (s, r))) l =
        some (l.map (fun s => (s, (none : Option String)))) := by
  intro l
  induction l with
  | nil => intro _; rfl
  | cons a rest ih =>
    intro h
    have ha := h a (List.mem_cons_self a rest)
    have hrest := ih (fun s hs => h s (List.mem_cons_of_mem a hs))
    simp [mapSpecs, ha, hrest]

/-- Pairs whose second component is null contribute nothing to the fix
record list. -/
lemma filterMap_none_pairs (l : List ImportSpecifierNode) :
    (l.map (fun s => (s, (none : Option String)))).filterMap
      (fun sr => sr.2.map (fun p => (sr.1.text, p))) = [] := by
  induction l with
  | nil => rfl
  | cons a rest ih => simp [ih]

/-- C7: for every import declaration whose source is blocked and whose
specifiers all fail to resolve (each resolution terminating with a
null-like NotFound result rather than an exception), the driver reports
the non-fixable diagnostic naming the blocked import source and proposes
no fix. -/
theorem c7_zero_resolved (env : Env) (fuel : Nat) (node : ImportDeclarationNode)
    (hb : node.sourceValue ∈ blockedImportSources)
    (hall : ∀ s ∈ node.specifiers,
      resolveSpecifier env fuel node.sourceValue s.importedName = some none) :
    visitImportDeclaration env fuel node =
      some (some (RuleReport.plainReport node.sourceValue)) := by
  unfold visitImportDeclaration
  rw [mapSpecs_all_none env fuel node.sourceValue node.specifiers hall]
  simp [hb, filterMap_none_pairs]

/-- C7 witness: the concrete scenario of the spec — `Bar` absent from the
whole export graph of the blocked package — produces exactly the plain
diagnostic. -/
theorem c7_zero_resolved_witness :
    visitImportDeclaration envC7 5 nodeC7 =
      some (some (RuleReport.plainReport "@trigger.dev/core")) :=
  c7_zero_resolved envC7 5 nodeC7 (by decide) (by decide)

/-- The allow-list scan of one file visit preserves barrel validity: it
only ever writes elements of the scanned list. -/
lemma okBarrel_foldl (allowed : List String) (fp : FsPath) :
    ∀ (l : List String) (b : Option String), (∀ a ∈ l, a ∈ allowed) →
      okBarrel allowed b →
      okBarrel allowed (l.foldl
        (fun b a => if strStartsWith (pathToCorePath fp) a then some a else b) b) := by
  intro l
  induction l with
  | nil => intro b _ hb; exact hb
  | cons a rest ih =>
    intro b hmem hb
    simp only [List.foldl_cons]
    apply ih
    · intro x hx; exact hmem x (List.mem_cons_of_mem a hx)
    · cases hc : strStartsWith (pathToCorePath fp) a with
      | false => simpa [hc] using hb
      | true =>
        simp only [hc, if_true]
        exact hmem a (List.mem_cons_self a rest)

/-- Barrel validity is preserved by `barrelScan`. -/
lemma okBarrel_barrelScan (allowed : List String) (fp : FsPath)
    (b : Option String) (hb : okBarrel allowed b) :
    okBarrel allowed (barrelScan allowed fp b) :=
  okBarrel_foldl allowed fp allowed b (fun _ ha => ha) hb

/-- Barrel validity is preserved by the named re-export loop, provided the
recursive calls preserve it. -/
lemma walkSpecs_okBarrel (fs : FS) (dir : FsPath) (source specifier : String)
    (allowed : List String) (recur : FsPath → Option String → Option WalkState)
    (hrec : ∀ p b r, okBarrel allowed b → recur p b = some r →
      okBarrel allowed r.2) :
    ∀ (l : List String) (st out : WalkState × Bool),
      okBarrel allowed st.1.2 →
      walkSpecs fs dir source specifier recur l st = some out →
      okBarrel allowed out.1.2 := by
  intro l
  induction l with
  | nil =>
    intro st out hst h
    rw [walkSpecs] at h
    cases h
    exact hst
  | cons ex rest ih =>
    intro st out hst h
    rw [walkSpecs] at h
    cases hdone : st.2 with
    | true =>
      simp only [hdone, if_true] at h
      cases h
      exact hst
    | false =>
      simp only [hdone, Bool.false_eq_true, if_false] at h
      by_cases hex : ex = specifier
      · rw [if_pos hex] at h
        cases htr : tryResolveSourcePath fs dir source with
        | none =>
          simp only [htr] at h
          exact ih st out hst h
        | some rp =>
          simp only [htr] at h
          cases hr : recur rp st.1.2 with
          | none => simp only [hr] at h; cases h
          | some r =>
            simp only [hr] at h
            have hok : okBarrel allowed r.2 := hrec rp st.1.2 r hst hr
            cases r with
            | mk found b2 =>
              cases found with
              | some p =>
                simp only [Option.some.injEq] at h
                rw [← h]
                exact hok
              | none => exact ih ((st.1.1, b2), false) out hok h
      · rw [if_neg hex] at h
        exact ih st out hst h

/-- Barrel validity is preserved by the statement traversal of one file,
provided the recursive calls preserve it. -/
lemma walkNodes_okBarrel (fs : FS) (dir filePath : FsPath) (specifier : String)
    (allowed : List String) (recur : FsPath → Option String → Option WalkState)
    (hrec : ∀ p b r, okBarrel allowed b → recur p b = some r →
      okBarrel allowed r.2) :
    ∀ (l : List ExportNode) (st out : WalkState),
      okBarrel allowed st.2 →
      walkNodes fs dir filePath specifier recur l st = some out →
      okBarrel allowed out.2 := by
  intro l
  induction l with
  | nil =>
    intro st out hst h
    have h2 : (some st : Option WalkState) = some out := h
    cases Option.some.inj h2
    exact hst
  | cons node rest ih =>
    intro st out hst h
    cases node with
    | namedDecl d =>
      rw [walkNodes] at h
      exact ih (if declMatches d specifier then some filePath else st.1, st.2)
        out hst h
    | namedFrom exported source =>
      rw [walkNodes] at h
      cases hws : walkSpecs fs dir source specifier recur exported (st, false) with
      | none => simp only [hws] at h; cases h
      | some st2 =>
        simp only [hws] at h
        have hok : okBarrel allowed st2.1.2 :=
          walkSpecs_okBarrel fs dir source specifier allowed recur hrec
            exported (st, false) st2 hst hws
        exact ih st2.1 out hok h
    | exportAll source =>
      rw [walkNodes] at h
      cases htr : tryResolveSourcePath fs dir source with
      | none => simp only [htr] at h; exact ih st out hst h
      | some rp =>
        simp only [htr] at h
        cases hr : recur rp st.2 with
        | none => simp only [hr] at h; cases h
        | some r =>
          simp only [hr] at h
          have hok : okBarrel allowed r.2 := hrec rp st.2 r hst hr
          cases r with
          | mk found b2 =>
            cases found with
            | some p => exact ih (some p, b2) out hok h
            | none => exact ih (st.1, b2) out hok h

/-- Barrel validity is preserved by the whole export-graph walk: whenever
`resolveExport` terminates, the barrel component of its result is either
absent or an element of the allow-list. -/
lemma resolveExport_okBarrel (fs : FS) (allowed : List String) :
    ∀ (fuel : Nat) (fileOrDir : FsPath) (specifier : String) (b : Option String)
      (r : WalkState),
      okBarrel allowed b →
      resolveExport fs allowed fuel fileOrDir specifier b = some r →
      okBarrel allowed r.2 := by
  intro fuel
  induction fuel with
  | zero => intro _ _ _ _ _ h; cases h
  | succ n ih =>
    intro fileOrDir specifier b r hb h
    simp only [resolveExport] at h
    by_cases hex : fs.existsSync
        (if fs.isDir fileOrDir then fileOrDir ++ ["index.ts"] else fileOrDir) = true
    · rw [if_pos hex] at h
      refine walkNodes_okBarrel fs _ _ specifier allowed _
        (fun p b2 r2 hb2 h2 => ih p specifier b2 r2 hb2 h2) _ _ r ?_ h
      exact okBarrel_barrelScan allowed _ b hb
    · rw [if_neg hex] at h
      cases h
      exact hb

/-- C9: the value `resolveSpecifier` produces for a named specifier is
always an element of the Allowed Barrel Set — it is the barrel candidate
recorded while some visited file matched an allow-list entry — and when
the defining file is found but the walk recorded no allowed entry, the
specifier resolves to null and thereby falls into the non-fixable
reporting path. -/
theorem c9_resolved_path_allowed :
    (∀ (env : Env) (fuel : Nat) (importSource specifier p : String),
        resolveSpecifier env fuel importSource specifier = some (some p) →
        p ∈ env.allowedBarrelFiles) ∧
    (∀ (env : Env) (fuel : Nat) (importSource specifier : String) (path : FsPath),
        resolveExport env.fs env.allowedBarrelFiles fuel
            ((env.resolveModule importSource).dropLast) specifier none =
          some (some path, none) →
        resolveSpecifier env fuel importSource specifier = some none) := by
  constructor
  · intro env fuel importSource specifier p h
    simp only [resolveSpecifier] at h
    cases hre : resolveExport env.fs env.allowedBarrelFiles fuel
        ((env.resolveModule importSource).dropLast) specifier none with
    | none => simp only [hre] at h; cases h
    | some r =>
      simp only [hre] at h
      have hok : okBarrel env.allowedBarrelFiles r.2 :=
        resolveExport_okBarrel env.fs env.allowedBarrelFiles fuel _ specifier
          none r trivial hre
      cases r with
      | mk found barrel =>
        cases found with
        | none => simp at h
        | some q =>
          simp only [Option.isSome_some, if_true, Option.some.injEq] at h
          rw [h] at hok
          exact hok
  · intro env fuel importSource specifier path h
    simp only [resolveSpecifier, h, Option.isSome_some, if_true]

/-- C9 witness: in the end-to-end scenario the produced replacement path is
an allow-list element, and in the same scenario with an empty allow-list
the defining file is still found yet the specifier resolves to null. -/
theorem c9_resolved_path_allowed_witness :
    "@trigger.dev/core/v3/foo" ∈ envC1.allowedBarrelFiles ∧
      resolveSpecifier envC9 5 "@trigger.dev/core/v3" "Foo" = some none :=
  ⟨c9_resolved_path_allowed.1 envC1 5 "@trigger.dev/core/v3" "Foo"
      "@trigger.dev/core/v3/foo" (by decide),
    c9_resolved_path_allowed.2 envC9 5 "@trigger.dev/core/v3" "Foo"
      (coreSrc ["v3", "foo.ts"]) (by decide)⟩

/-- C10 counterexample: an error satisfying every condition of the claim —
non-null object, status 403, response with remaining "0" and a present
`x-ratelimit-reset` header — for which `onError` nevertheless returns
undefined, because the handler requires the reset header to be truthy
(non-empty), not merely present. -/
theorem c10_counterexample :
    onError errEmptyReset = none ∧
      errEmptyReset.isNonNullObject = true ∧
      errEmptyReset.statusProp = some 403 ∧
      errEmptyReset.response = some respEmptyReset ∧
      headerGet respEmptyReset "x-ratelimit-remaining" = some "0" ∧
      (headerGet respEmptyReset "x-ratelimit-reset").isSome = true := by
  exact ⟨rfl, rfl, rfl, rfl, rfl, rfl⟩

/-- C10 amended: every task wrapper shares the one `onError` handler, and
that handler returns a retry hint if and only if the error is a non-null
object with status property 403 carrying a response whose
`x-ratelimit-remaining` header equals "0" and whose `x-ratelimit-reset`
header is present with a non-empty value; in that case the hint pairs the
original error with the date whose epoch milliseconds are the reset
header value times 1000; in every other case it returns undefined. -/
theorem c10_retry_hint_iff :
    tasks.map (fun t => t.onError) =
      [onError, onError, onError, onError, onError, onError, onError,
        onError, onError, onError, onError] ∧
    ∀ (e : GHError) (h : RetryHint),
      onError e = some h ↔
        e.isNonNullObject = true ∧
        e.statusProp = some 403 ∧
        ∃ resp, e.response = some resp ∧
          headerGet resp "x-ratelimit-remaining" = some "0" ∧
          ∃ v, headerGet resp "x-ratelimit-reset" = some v ∧ v ≠ "" ∧
            h = { retryAtMs := (jsNumberNat v).map (fun n => n * 1000),
                  err := e } := by
  refine ⟨rfl, ?_⟩
  intro e h
  cases e with
  | mk isObj status resp =>
    cases status with
    | none => simp [onError, isRequestError]
    | some s =>
      cases isObj with
      | false => simp [onError, isRequestError]
      | true =>
        cases resp with
        | none => simp [onError, isRequestError]
        | some r =>
          by_cases hs : s = 403
          · subst hs
            simp only [onError, isRequestError, Option.isSome_some,
              Bool.and_true, Bool.and_self, Bool.not_true, Bool.false_eq_true,
              if_false, beq_self_eq_true, Bool.true_and]
            cases hrem : headerGet r "x-ratelimit-remaining" with
            | none => simp [hrem]
            | some w =>
              by_cases hw : w = "0"
              · subst hw
                cases hres : headerGet r "x-ratelimit-reset" with
                | none => simp [hrem, hres, jsTruthy]
                | some v =>
                  by_cases hv : v = ""
                  · subst hv
                    simp [hrem, hres, jsTruthy]
                  · simp [hrem, hres, jsTruthy, hv]
                    exact eq_comm
              · simp [hrem, hw]
          · simp [onError, isRequestError, hs]

end TriggerSpec
